import Mathlib

/-!
Shallow embedding of src/packages/react-dom/src/events/ReactDOMEventListener.js.

Fibers (component instances) and DOM nodes are identified by natural numbers.
External collaborators (the instance resolver, the handler-invocation pipeline,
event-target normalization, the interactive classification and the discrete
staleness policy) are supplied by a HostEnv record of functions.  Stateful
execution is modelled by explicit state passing: the bookkeeping pool is a
List BookKeeping (its head is the end of the JS array, the end both push and
pop operate on), and every dispatch returns the ordered trace of calls it
makes into external collaborators, an Except value for the JS exception flow,
and the updated pool.  The two source loops (the while loop in
findRootContainerNode and the do/while loop in handleTopLevel) take fuel;
running out of fuel yields none, matching a non-terminating JS loop in that
no result and no cleanup is produced.
-/

/-- Tag value of root fibers, from shared/ReactWorkTags (HostRoot = 3). -/
def HostRoot : Nat := 3

/-- Flag value from events/EventSystemFlags (PLUGIN_EVENT_SYSTEM = 1). -/
def PLUGIN_EVENT_SYSTEM : Nat := 1

/-- Capacity ceiling of the bookkeeping pool (CALLBACK_BOOKKEEPING_POOL_SIZE). -/
def CALLBACK_BOOKKEEPING_POOL_SIZE : Nat := 10

/-- One observable call into an external collaborator, in program order.
resolve records a call into getClosestInstanceFromNode; pushAncestor records
one push onto the ancestors array of the bookkeeping record; deliver records
one call into runExtractedPluginEventsInBatch; the remaining constructors
record calls into the batching primitives and the responder system. -/
inductive Act where
  | resolve (node : Nat)
  | pushAncestor (inst : Option Nat)
  | deliver (topLevelType : Option Nat) (targetInst : Option Nat)
      (nativeEvent : Option Nat) (eventTarget : Nat)
  | batchedEventUpdates
  | discreteUpdates
  | flushDiscreteUpdates
  | responderDispatch (topLevelType : Nat) (targetInst : Option Nat)
      (nativeEvent : Nat) (eventTarget : Nat) (flags : Nat)
  deriving DecidableEq, Repr

def Act.isDeliver : Act → Bool
  | .deliver _ _ _ _ => true
  | _ => false

def Act.isPushAncestor : Act → Bool
  | .pushAncestor _ => true
  | _ => false

def Act.isResolve : Act → Bool
  | .resolve _ => true
  | _ => false

/-- The host world consumed by the listener module: fiber parent links and
tags, container back-references, the instance resolver, mount status, event
target normalization, the plugin pipeline (which may throw, modelled by
Except with a Nat error code), the interactive classification and the
discrete-flush staleness policy. -/
structure HostEnv where
  fiberReturn : Nat → Option Nat
  fiberTag : Nat → Nat
  containerInfo : Nat → Nat
  getClosestInstanceFromNode : Nat → Option Nat
  isFiberMounted : Nat → Bool
  getEventTarget : Option Nat → Nat
  runExtractedPluginEventsInBatch :
    Option Nat → Option Nat → Option Nat → Nat → Except Nat Unit
  isInteractiveTopLevelEventType : Nat → Bool
  shouldflushDiscreteUpdates : Nat → Bool
  timeStamp : Nat → Nat

/-- The pooled BookKeepingInstance record.  All four fields are exactly the
source fields; null is Option.none. -/
structure BookKeeping where
  topLevelType : Option Nat
  nativeEvent : Option Nat
  targetInst : Option Nat
  ancestors : List (Option Nat)
  deriving DecidableEq, Repr

/-- The fully reset record: every scalar field null and ancestors empty. -/
def clearedBookKeeping : BookKeeping :=
  { topLevelType := none, nativeEvent := none, targetInst := none, ancestors := [] }

/-- The while loop of findRootContainerNode: follow the return links to the
topmost fiber.  Fuel bounds the walk; none means the walk did not finish. -/
def fiberTop (env : HostEnv) : Nat → Nat → Option Nat
  | 0, _ => none
  | fuel + 1, inst =>
    match env.fiberReturn inst with
    | some p => fiberTop env fuel p
    | none => some inst

/-- findRootContainerNode: walk to the top fiber; if its tag is not HostRoot
the tree is detached and the JS function returns null (modelled some none);
otherwise return the containerInfo of its stateNode.  The outer none means
the while loop ran out of fuel. -/
def findRootContainerNode (env : HostEnv) (fuel : Nat) (inst : Nat) :
    Option (Option Nat) :=
  match fiberTop env fuel inst with
  | none => none
  | some top =>
    if env.fiberTag top = HostRoot then some (some (env.containerInfo top))
    else some none

/-- getTopLevelCallbackBookKeeping: pop a pooled record and repopulate its
three scalar fields (the ancestors field is deliberately left as it was,
exactly as in the source), or allocate a fresh record with empty ancestors.
Returns the acquired record and the remaining pool. -/
def getTopLevelCallbackBookKeeping (topLevelType : Nat) (nativeEvent : Nat)
    (targetInst : Option Nat) (pool : List BookKeeping) :
    BookKeeping × List BookKeeping :=
  match pool with
  | instance_ :: rest =>
    ({ instance_ with
        topLevelType := some topLevelType
        nativeEvent := some nativeEvent
        targetInst := targetInst }, rest)
  | [] =>
    ({ topLevelType := some topLevelType
       nativeEvent := some nativeEvent
       targetInst := targetInst
       ancestors := [] }, [])

/-- releaseTopLevelCallbackBookKeeping: null out every scalar field, truncate
ancestors to length 0, and push the record back only when the pool is below
its capacity ceiling; otherwise the record is dropped. -/
def releaseTopLevelCallbackBookKeeping (instance_ : BookKeeping)
    (pool : List BookKeeping) : List BookKeeping :=
  let _ := instance_
  if pool.length < CALLBACK_BOOKKEEPING_POOL_SIZE then
    clearedBookKeeping :: pool
  else
    pool

/-- The do/while loop of handleTopLevel that builds the ancestors array.
acc is the current contents of bookKeeping.ancestors.  A null ancestor (only
possible on entry, since the loop continues only on a non-null next instance)
is pushed and the loop breaks; otherwise findRootContainerNode is consulted:
a null root breaks without pushing (detached tree), else the instance is
pushed and the owner of the root container node becomes the next ancestor.
The trace records each push and each resolver call in program order.
none means one of the loops ran out of fuel. -/
def ancestorsLoop (env : HostEnv) (chainFuel : Nat) :
    Nat → Option Nat → List (Option Nat) →
    Option (List (Option Nat) × List Act)
  | 0, _, _ => none
  | _ + 1, none, acc => some (acc ++ [none], [Act.pushAncestor none])
  | fuel + 1, some a, acc =>
    match findRootContainerNode env chainFuel a with
    | none => none
    | some none => some (acc, [])
    | some (some root) =>
      match env.getClosestInstanceFromNode root with
      | none =>
        some (acc ++ [some a], [Act.pushAncestor (some a), Act.resolve root])
      | some next =>
        match ancestorsLoop env chainFuel fuel (some next) (acc ++ [some a]) with
        | none => none
        | some (l, tr) =>
          some (l, Act.pushAncestor (some a) :: Act.resolve root :: tr)

/-- The for loop of handleTopLevel: deliver the event once per entry in the
ancestors array, recomputing the event target each iteration; a thrown error
aborts the loop and propagates. -/
def deliverLoop (env : HostEnv) (topLevelType : Option Nat)
    (nativeEvent : Option Nat) : List (Option Nat) → List Act × Except Nat Unit
  | [] => ([], Except.ok ())
  | a :: rest =>
    let eventTarget := env.getEventTarget nativeEvent
    match env.runExtractedPluginEventsInBatch topLevelType a nativeEvent eventTarget with
    | Except.error err =>
      ([Act.deliver topLevelType a nativeEvent eventTarget], Except.error err)
    | Except.ok () =>
      let (tr, res) := deliverLoop env topLevelType nativeEvent rest
      (Act.deliver topLevelType a nativeEvent eventTarget :: tr, res)

/-- handleTopLevel: build the full ancestors array starting from
bookKeeping.targetInst, then run the delivery loop over the built array.
Returns the record with its final ancestors, the combined trace, and the
delivery outcome. -/
def handleTopLevel (env : HostEnv) (chainFuel fuel : Nat) (bookKeeping : BookKeeping) :
    Option (BookKeeping × List Act × Except Nat Unit) :=
  match ancestorsLoop env chainFuel fuel bookKeeping.targetInst bookKeeping.ancestors with
  | none => none
  | some (ancestors, tr1) =>
    let bk := { bookKeeping with ancestors := ancestors }
    let (tr2, res) := deliverLoop env bk.topLevelType bk.nativeEvent bk.ancestors
    some (bk, tr1 ++ tr2, res)

/-- dispatchEventForPluginEventSystem: acquire a record, run handleTopLevel
inside batchedEventUpdates, and release the record unconditionally (the JS
try/finally); the delivery outcome, error or not, is returned to the caller.
When handleTopLevel diverges (fuel runs out) the finally block is never
reached, so no release happens and the whole result is none. -/
def dispatchEventForPluginEventSystem (env : HostEnv) (chainFuel fuel : Nat)
    (topLevelType eventSystemFlags nativeEvent : Nat) (targetInst : Option Nat)
    (pool : List BookKeeping) :
    Option (List Act × Except Nat Unit × List BookKeeping) :=
  let _ := eventSystemFlags
  let (bookKeeping, pool1) :=
    getTopLevelCallbackBookKeeping topLevelType nativeEvent targetInst pool
  match handleTopLevel env chainFuel fuel bookKeeping with
  | none => none
  | some (bk2, tr, res) =>
    some (Act.batchedEventUpdates :: tr, res,
      releaseTopLevelCallbackBookKeeping bk2 pool1)

/-- dispatchEvent: the exported entry point.  If the module-level enabled
flag is false, return immediately (no resolver call, no pipeline call, pool
untouched).  Otherwise normalize the event target, resolve the nearest
instance, null it out when it exists but is not mounted (its tag is always a
number in this model, so the typeof guard of the source is always true), and
route: with enableEventAPI set, flags equal to PLUGIN_EVENT_SYSTEM go to the
plugin system and anything else to the responder system; with the feature
flag off, everything goes to the plugin system. -/
def dispatchEvent (env : HostEnv) (chainFuel fuel : Nat)
    (enabled enableEventAPI : Bool)
    (topLevelType eventSystemFlags nativeEvent : Nat) (pool : List BookKeeping) :
    Option (List Act × Except Nat Unit × List BookKeeping) :=
  if !enabled then some ([], Except.ok (), pool)
  else
    let nativeEventTarget := env.getEventTarget (some nativeEvent)
    let targetInst0 := env.getClosestInstanceFromNode nativeEventTarget
    let targetInst :=
      match targetInst0 with
      | some i => if !env.isFiberMounted i then none else some i
      | none => none
    if enableEventAPI then
      if eventSystemFlags = PLUGIN_EVENT_SYSTEM then
        match dispatchEventForPluginEventSystem env chainFuel fuel
            topLevelType eventSystemFlags nativeEvent targetInst pool with
        | none => none
        | some (tr, res, pool2) =>
          some (Act.resolve nativeEventTarget :: tr, res, pool2)
      else
        some ([Act.resolve nativeEventTarget,
               Act.responderDispatch topLevelType targetInst nativeEvent
                 nativeEventTarget eventSystemFlags],
              Except.ok (), pool)
    else
      match dispatchEventForPluginEventSystem env chainFuel fuel
          topLevelType eventSystemFlags nativeEvent targetInst pool with
      | none => none
      | some (tr, res, pool2) =>
        some (Act.resolve nativeEventTarget :: tr, res, pool2)

/-- dispatchInteractiveEvent: flush pending discrete updates when the feature
flag is off or the staleness policy fires, then run dispatchEvent wrapped in
discreteUpdates. -/
def dispatchInteractiveEvent (env : HostEnv) (chainFuel fuel : Nat)
    (enabled enableEventAPI : Bool)
    (topLevelType eventSystemFlags nativeEvent : Nat) (pool : List BookKeeping) :
    Option (List Act × Except Nat Unit × List BookKeeping) :=
  let pre :=
    if !enableEventAPI || env.shouldflushDiscreteUpdates (env.timeStamp nativeEvent)
    then [Act.flushDiscreteUpdates] else []
  match dispatchEvent env chainFuel fuel enabled enableEventAPI
      topLevelType eventSystemFlags nativeEvent pool with
  | none => none
  | some (tr, res, pool2) =>
    some (pre ++ Act.discreteUpdates :: tr, res, pool2)

/-- The listener bound by trapEventForPluginEventSystem: interactive top
level event types are bound to dispatchInteractiveEvent, all others to plain
dispatchEvent, in both cases with PLUGIN_EVENT_SYSTEM flags. -/
def trapEventForPluginEventSystemListener (env : HostEnv) (chainFuel fuel : Nat)
    (enabled enableEventAPI : Bool) (topLevelType nativeEvent : Nat)
    (pool : List BookKeeping) :
    Option (List Act × Except Nat Unit × List BookKeeping) :=
  if env.isInteractiveTopLevelEventType topLevelType then
    dispatchInteractiveEvent env chainFuel fuel enabled enableEventAPI
      topLevelType PLUGIN_EVENT_SYSTEM nativeEvent pool
  else
    dispatchEvent env chainFuel fuel enabled enableEventAPI
      topLevelType PLUGIN_EVENT_SYSTEM nativeEvent pool

/-- A pool every record of which is fully cleared.  This is the state the
pool is in at every point of real execution, since release is the only push
site and it clears every field first. -/
def PoolCleared (pool : List BookKeeping) : Prop :=
  ∀ bk ∈ pool, bk = clearedBookKeeping

/-- The pool invariant of the source: every pooled record fully cleared and
the pool never longer than the capacity ceiling. -/
def PoolInv (pool : List BookKeeping) : Prop :=
  PoolCleared pool ∧ pool.length ≤ CALLBACK_BOOKKEEPING_POOL_SIZE

/-- Modelled from the spec, for the refinement comparison of the pooling
optimization: the always-allocate variant of the plugin dispatch executor
builds a fresh record every time and returns no pool; only the trace and the
outcome are produced. -/
def dispatchEventForPluginEventSystemAlwaysAllocate (env : HostEnv)
    (chainFuel fuel : Nat) (topLevelType eventSystemFlags nativeEvent : Nat)
    (targetInst : Option Nat) : Option (List Act × Except Nat Unit) :=
  let _ := eventSystemFlags
  let bookKeeping : BookKeeping :=
    { topLevelType := some topLevelType
      nativeEvent := some nativeEvent
      targetInst := targetInst
      ancestors := [] }
  match handleTopLevel env chainFuel fuel bookKeeping with
  | none => none
  | some (_, tr, res) => some (Act.batchedEventUpdates :: tr, res)

/-- One plugin-system dispatch request, for running sequences of dispatches. -/
structure DispatchInput where
  topLevelType : Nat
  eventSystemFlags : Nat
  nativeEvent : Nat
  targetInst : Option Nat
  deriving DecidableEq, Repr

/-- Run a sequence of plugin-system dispatches threading the pool through.
A diverging dispatch (none) ends the sequence, as the JS event loop would
never regain control. -/
def runPluginDispatches (env : HostEnv) (chainFuel fuel : Nat) :
    List DispatchInput → List BookKeeping →
    List (Option (List Act × Except Nat Unit)) × List BookKeeping
  | [], pool => ([], pool)
  | d :: ds, pool =>
    match dispatchEventForPluginEventSystem env chainFuel fuel
        d.topLevelType d.eventSystemFlags d.nativeEvent d.targetInst pool with
    | none => ([none], pool)
    | some (tr, res, pool2) =>
      let (rest, poolF) := runPluginDispatches env chainFuel fuel ds pool2
      (some (tr, res) :: rest, poolF)

/-- Run the same sequence with the always-allocate executor (no pool). -/
def runPluginDispatchesAlwaysAllocate (env : HostEnv) (chainFuel fuel : Nat) :
    List DispatchInput → List (Option (List Act × Except Nat Unit))
  | [] => []
  | d :: ds =>
    match dispatchEventForPluginEventSystemAlwaysAllocate env chainFuel fuel
        d.topLevelType d.eventSystemFlags d.nativeEvent d.targetInst with
    | none => [none]
    | some r =>
      some r :: runPluginDispatchesAlwaysAllocate env chainFuel fuel ds

/-- A concrete host world with two nested mounted trees: fiber 1 (the target)
sits under root fiber 0 whose container is node 10; node 10 is owned by fiber
3, which sits under root fiber 2 whose container is node 20; node 20 is
outside any tree.  Fiber 4 is a top fiber that is not a root (a detached
tree).  Every fiber is mounted, event kind 1 is interactive, the pipeline
succeeds, and the target of event e is node 100 + e. -/
def twoTreeEnv : HostEnv where
  fiberReturn := fun n => if n = 1 then some 0 else if n = 3 then some 2 else none
  fiberTag := fun n => if n = 0 ∨ n = 2 then HostRoot else 5
  containerInfo := fun n => if n = 0 then 10 else 20
  getClosestInstanceFromNode := fun node => if node = 10 then some 3 else none
  isFiberMounted := fun _ => true
  getEventTarget := fun e => match e with | some ev => 100 + ev | none => 0
  runExtractedPluginEventsInBatch := fun _ _ _ _ => Except.ok ()
  isInteractiveTopLevelEventType := fun t => t == 1
  shouldflushDiscreteUpdates := fun _ => false
  timeStamp := fun e => e

/-- The same world with a handler-invocation pipeline that always throws
error code 7. -/
def throwingEnv : HostEnv :=
  { twoTreeEnv with runExtractedPluginEventsInBatch := fun _ _ _ _ => Except.error 7 }

/-- The same world where the target of event 2 (node 102) resolves to fiber 1
but fiber 1 is reported as not mounted. -/
def unmountedTargetEnv : HostEnv :=
  { twoTreeEnv with
      getClosestInstanceFromNode := fun node =>
        if node = 102 then some 1 else if node = 10 then some 3 else none
      isFiberMounted := fun n => !(n == 1) }

theorem ancestorsLoop_trace_mem (env : HostEnv) (chainFuel : Nat) :
    ∀ fuel anc acc l tr, ancestorsLoop env chainFuel fuel anc acc = some (l, tr) →
      ∀ a ∈ tr, a.isPushAncestor = true ∨ a.isResolve = true := by
  intro fuel
  induction fuel with
  | zero => intro anc acc l tr h; simp [ancestorsLoop] at h
  | succ n ih =>
    intro anc acc l tr h
    cases anc with
    | none =>
      simp only [ancestorsLoop, Option.some.injEq, Prod.mk.injEq] at h
      obtain ⟨-, h2⟩ := h
      subst h2
      intro a ha
      simp only [List.mem_singleton] at ha
      subst ha
      left; rfl
    | some a0 =>
      cases hroot : findRootContainerNode env chainFuel a0 with
      | none => simp [ancestorsLoop, hroot] at h
      | some rootOpt =>
        cases rootOpt with
        | none =>
          simp only [ancestorsLoop, hroot, Option.some.injEq, Prod.mk.injEq] at h
          obtain ⟨-, h2⟩ := h
          subst h2
          intro a ha
          simp at ha
        | some root =>
          cases hres : env.getClosestInstanceFromNode root with
          | none =>
            simp only [ancestorsLoop, hroot, hres, Option.some.injEq, Prod.mk.injEq] at h
            obtain ⟨-, h2⟩ := h
            subst h2
            intro a ha
            simp only [List.mem_cons, List.not_mem_nil, or_false] at ha
            rcases ha with rfl | rfl
            · left; rfl
            · right; rfl
          | some next =>
            cases hrec : ancestorsLoop env chainFuel n (some next) (acc ++ [some a0]) with
            | none => simp [ancestorsLoop, hroot, hres, hrec] at h
            | some p =>
              obtain ⟨l2, tr2⟩ := p
              simp only [ancestorsLoop, hroot, hres, hrec, Option.some.injEq,
                Prod.mk.injEq] at h
              obtain ⟨-, h2⟩ := h
              subst h2
              intro a ha
              simp only [List.mem_cons] at ha
              rcases ha with rfl | rfl | ha
              · left; rfl
              · right; rfl
              · exact ih (some next) (acc ++ [some a0]) l2 tr2 hrec a ha

theorem deliverLoop_trace_mem (env : HostEnv) (t e : Option Nat) :
    ∀ l, ∀ a ∈ (deliverLoop env t e l).fst, a.isDeliver = true := by
  intro l
  induction l with
  | nil => intro a ha; simp [deliverLoop] at ha
  | cons x xs ih =>
    intro a ha
    cases hr : env.runExtractedPluginEventsInBatch t x e (env.getEventTarget e) with
    | error err =>
      simp only [deliverLoop, hr] at ha
      simp only [List.mem_cons, List.not_mem_nil, or_false] at ha
      subst ha; rfl
    | ok u =>
      cases u
      rcases hdl : deliverLoop env t e xs with ⟨tr2, res2⟩
      simp only [deliverLoop, hr, hdl] at ha
      simp only [List.mem_cons] at ha
      rcases ha with rfl | ha
      · rfl
      · exact ih a (by rw [hdl]; exact ha)

theorem act_not_deliver_of_push_or_resolve {a : Act}
    (h : a.isPushAncestor = true ∨ a.isResolve = true) : a.isDeliver = false := by
  cases a <;> simp [Act.isPushAncestor, Act.isResolve, Act.isDeliver] at h ⊢

theorem act_not_push_of_deliver {a : Act} (h : a.isDeliver = true) :
    a.isPushAncestor = false := by
  cases a <;> simp [Act.isPushAncestor, Act.isDeliver] at h ⊢

theorem ancestorsLoop_result_extends (env : HostEnv) (chainFuel : Nat) :
    ∀ fuel anc acc l tr, ancestorsLoop env chainFuel fuel anc acc = some (l, tr) →
      ∃ added, l = acc ++ added := by
  intro fuel
  induction fuel with
  | zero => intro anc acc l tr h; simp [ancestorsLoop] at h
  | succ n ih =>
    intro anc acc l tr h
    cases anc with
    | none =>
      simp only [ancestorsLoop, Option.some.injEq, Prod.mk.injEq] at h
      exact ⟨[none], h.1.symm⟩
    | some a0 =>
      cases hroot : findRootContainerNode env chainFuel a0 with
      | none => simp [ancestorsLoop, hroot] at h
      | some rootOpt =>
        cases rootOpt with
        | none =>
          simp only [ancestorsLoop, hroot, Option.some.injEq, Prod.mk.injEq] at h
          exact ⟨[], by simp [h.1.symm]⟩
        | some root =>
          cases hres : env.getClosestInstanceFromNode root with
          | none =>
            simp only [ancestorsLoop, hroot, hres, Option.some.injEq, Prod.mk.injEq] at h
            exact ⟨[some a0], h.1.symm⟩
          | some next =>
            cases hrec : ancestorsLoop env chainFuel n (some next) (acc ++ [some a0]) with
            | none => simp [ancestorsLoop, hroot, hres, hrec] at h
            | some p =>
              obtain ⟨l2, tr2⟩ := p
              simp only [ancestorsLoop, hroot, hres, hrec, Option.some.injEq,
                Prod.mk.injEq] at h
              obtain ⟨added, hadded⟩ := ih (some next) (acc ++ [some a0]) l2 tr2 hrec
              exact ⟨[some a0] ++ added, by rw [← h.1, hadded, List.append_assoc]⟩

/-- C1: for every dispatch through the plugin event system, the entry-point
sequence (the ancestors array of the bookkeeping record) is fully built before
runExtractedPluginEventsInBatch is invoked for any entry: the call trace of
the dispatch splits into a build phase containing no pipeline invocation
followed by a delivery phase containing no ancestors push, so no delivery
call ever occurs while the sequence is still being extended. -/
theorem c1_entry_points_built_before_delivery (env : HostEnv)
    (chainFuel fuel : Nat) (topLevelType eventSystemFlags nativeEvent : Nat)
    (targetInst : Option Nat) (pool : List BookKeeping) (tr : List Act)
    (res : Except Nat Unit) (pool2 : List BookKeeping)
    (h : dispatchEventForPluginEventSystem env chainFuel fuel topLevelType
      eventSystemFlags nativeEvent targetInst pool = some (tr, res, pool2)) :
    ∃ buildPhase deliverPhase, tr = buildPhase ++ deliverPhase ∧
      (∀ a ∈ buildPhase, a.isDeliver = false) ∧
      (∀ a ∈ deliverPhase, a.isPushAncestor = false) := by
  rcases hacq : getTopLevelCallbackBookKeeping topLevelType nativeEvent targetInst pool
    with ⟨bk, pool1⟩
  simp only [dispatchEventForPluginEventSystem, hacq] at h
  cases hht : handleTopLevel env chainFuel fuel bk with
  | none => simp [hht] at h
  | some trip =>
    obtain ⟨bk2, trh, resh⟩ := trip
    simp only [hht, Option.some.injEq, Prod.mk.injEq] at h
    obtain ⟨htr, -, -⟩ := h
    cases hanc : ancestorsLoop env chainFuel fuel bk.targetInst bk.ancestors with
    | none => simp [handleTopLevel, hanc] at hht
    | some p =>
      obtain ⟨ancestors, tr1⟩ := p
      rcases hdl : deliverLoop env bk.topLevelType bk.nativeEvent ancestors
        with ⟨tr2, res2⟩
      simp only [handleTopLevel, hanc, hdl, Option.some.injEq, Prod.mk.injEq] at hht
      obtain ⟨-, htrh, -⟩ := hht
      refine ⟨Act.batchedEventUpdates :: tr1, tr2, ?_, ?_, ?_⟩
      · rw [← htr, ← htrh]; rfl
      · intro a ha
        simp only [List.mem_cons] at ha
        rcases ha with rfl | ha
        · rfl
        · exact act_not_deliver_of_push_or_resolve
            (ancestorsLoop_trace_mem env chainFuel fuel bk.targetInst bk.ancestors
              ancestors tr1 hanc a ha)
      · intro a ha
        exact act_not_push_of_deliver
          (deliverLoop_trace_mem env bk.topLevelType bk.nativeEvent ancestors a
            (by rw [hdl]; exact ha))

/-- Witness for C1: the concrete nested-trees dispatch of event 2 at fiber 1. -/
theorem c1_entry_points_built_before_delivery_witness :
    ∃ buildPhase deliverPhase,
      ([Act.batchedEventUpdates, Act.pushAncestor (some 1), Act.resolve 10,
        Act.pushAncestor (some 3), Act.resolve 20,
        Act.deliver (some 0) (some 1) (some 2) 102,
        Act.deliver (some 0) (some 3) (some 2) 102] : List Act)
        = buildPhase ++ deliverPhase ∧
      (∀ a ∈ buildPhase, a.isDeliver = false) ∧
      (∀ a ∈ deliverPhase, a.isPushAncestor = false) :=
  c1_entry_points_built_before_delivery twoTreeEnv 5 5 0 1 2 (some 1) [] _
    (Except.ok ()) [clearedBookKeeping] rfl

/-- C2: for a non-null target instance whose return chain reaches a HostRoot
top fiber, the traversal yields a sequence of length at least 1 whose first
entry is the original instance (innermost tree first); and when the root
container of that instance is owned by an outer instance whose own root
container is owned by nobody, the traversal yields exactly the two entries,
original instance first and outer owning instance second. -/
theorem c2_traversal_len_ge_one_and_nested_two (env : HostEnv)
    (chainFuel fuel : Nat) (i root : Nat) (l : List (Option Nat)) (tr : List Act)
    (hroot : findRootContainerNode env chainFuel i = some (some root))
    (hloop : ancestorsLoop env chainFuel fuel (some i) [] = some (l, tr)) :
    (1 ≤ l.length ∧ l.head? = some (some i)) ∧
    (∀ j root2, env.getClosestInstanceFromNode root = some j →
      findRootContainerNode env chainFuel j = some (some root2) →
      env.getClosestInstanceFromNode root2 = none →
      ∀ f2, ancestorsLoop env chainFuel (f2 + 2) (some i) [] =
        some ([some i, some j],
          [Act.pushAncestor (some i), Act.resolve root,
           Act.pushAncestor (some j), Act.resolve root2])) := by
  constructor
  · cases fuel with
    | zero => simp [ancestorsLoop] at hloop
    | succ n =>
      cases hres : env.getClosestInstanceFromNode root with
      | none =>
        simp only [ancestorsLoop, hroot, hres, List.nil_append, Option.some.injEq,
          Prod.mk.injEq] at hloop
        rw [← hloop.1]
        exact ⟨by simp, rfl⟩
      | some next =>
        cases hrec : ancestorsLoop env chainFuel n (some next) [some i] with
        | none => simp [ancestorsLoop, hroot, hres, hrec] at hloop
        | some p =>
          obtain ⟨l2, tr2⟩ := p
          simp only [ancestorsLoop, hroot, hres, List.nil_append, hrec,
            Option.some.injEq, Prod.mk.injEq] at hloop
          obtain ⟨added, hadded⟩ :=
            ancestorsLoop_result_extends env chainFuel n (some next)
              [some i] l2 tr2 hrec
          rw [← hloop.1, hadded]
          exact ⟨by simp, rfl⟩
  · intro j root2 hj hroot2 hres2 f2
    simp [ancestorsLoop, hroot, hj, hroot2, hres2]

/-- Witness for C2: in the concrete nested world, fiber 1 under root
container 10 owned by fiber 3 under root container 20. -/
theorem c2_traversal_len_ge_one_and_nested_two_witness :
    (1 ≤ ([some 1, some 3] : List (Option Nat)).length ∧
      ([some 1, some 3] : List (Option Nat)).head? = some (some 1)) ∧
    (∀ j root2, twoTreeEnv.getClosestInstanceFromNode 10 = some j →
      findRootContainerNode twoTreeEnv 5 j = some (some root2) →
      twoTreeEnv.getClosestInstanceFromNode root2 = none →
      ∀ f2, ancestorsLoop twoTreeEnv 5 (f2 + 2) (some 1) [] =
        some ([some 1, some j],
          [Act.pushAncestor (some 1), Act.resolve 10,
           Act.pushAncestor (some j), Act.resolve root2])) :=
  c2_traversal_len_ge_one_and_nested_two twoTreeEnv 5 5 1 10 [some 1, some 3]
    [Act.pushAncestor (some 1), Act.resolve 10,
     Act.pushAncestor (some 3), Act.resolve 20] rfl rfl

/-- C7: for an absent (null) target instance the traversal pushes the single
absent marker, and the delivery loop then invokes the handler-invocation
pipeline exactly once with that absent target: the trace holds exactly one
deliver call, untargeted. -/
theorem c7_null_target_single_untargeted_delivery (env : HostEnv)
    (chainFuel fuel : Nat) (topLevelType nativeEvent : Nat) :
    ∃ res, handleTopLevel env chainFuel (fuel + 1)
        { topLevelType := some topLevelType, nativeEvent := some nativeEvent,
          targetInst := none, ancestors := [] } =
      some ({ topLevelType := some topLevelType, nativeEvent := some nativeEvent,
              targetInst := none, ancestors := [none] },
        [Act.pushAncestor none,
         Act.deliver (some topLevelType) none (some nativeEvent)
           (env.getEventTarget (some nativeEvent))], res) := by
  cases hr : env.runExtractedPluginEventsInBatch (some topLevelType) none
      (some nativeEvent) (env.getEventTarget (some nativeEvent)) with
  | error err =>
    exact ⟨Except.error err,
      by simp [handleTopLevel, ancestorsLoop, deliverLoop, hr]⟩
  | ok u =>
    cases u
    exact ⟨Except.ok (),
      by simp [handleTopLevel, ancestorsLoop, deliverLoop, hr]⟩

/-- C8: when the return chain of an instance ends at a top fiber not tagged
HostRoot (a detached tree), the traversal stops without appending that
instance, leaving the sequence exactly as accumulated so far (empty when the
detached instance is the original target), and a dispatch at such a target
makes no pipeline call and raises no error. -/
theorem c8_detached_tree_truncates_silently (env : HostEnv)
    (chainFuel fuel : Nat) (i : Nat) (acc : List (Option Nat))
    (topLevelType nativeEvent : Nat)
    (hdet : findRootContainerNode env chainFuel i = some none) :
    ancestorsLoop env chainFuel (fuel + 1) (some i) acc = some (acc, []) ∧
    handleTopLevel env chainFuel (fuel + 1)
        { topLevelType := some topLevelType, nativeEvent := some nativeEvent,
          targetInst := some i, ancestors := [] } =
      some ({ topLevelType := some topLevelType, nativeEvent := some nativeEvent,
              targetInst := some i, ancestors := [] },
        [], Except.ok ()) := by
  constructor
  · simp [ancestorsLoop, hdet]
  · simp [handleTopLevel, ancestorsLoop, hdet, deliverLoop]

/-- Witness for C8: fiber 4, a top fiber with a non-root tag, in the concrete
world. -/
theorem c8_detached_tree_truncates_silently_witness :
    ancestorsLoop twoTreeEnv 5 6 (some 4) [] = some ([], []) ∧
    handleTopLevel twoTreeEnv 5 6
        { topLevelType := some 0, nativeEvent := some 2,
          targetInst := some 4, ancestors := [] } =
      some ({ topLevelType := some 0, nativeEvent := some 2,
              targetInst := some 4, ancestors := [] },
        [], Except.ok ()) :=
  c8_detached_tree_truncates_silently twoTreeEnv 5 5 4 [] 0 2 rfl

theorem getBookKeeping_fst_of_cleared (pool : List BookKeeping)
    (h : PoolCleared pool) (t e : Nat) (ti : Option Nat) :
    (getTopLevelCallbackBookKeeping t e ti pool).fst =
      { topLevelType := some t, nativeEvent := some e, targetInst := ti,
        ancestors := [] } := by
  cases pool with
  | nil => rfl
  | cons bk rest =>
    have hbk : bk = clearedBookKeeping := h bk (by simp)
    subst hbk
    rfl

theorem poolCleared_after_acquire (pool : List BookKeeping)
    (h : PoolCleared pool) (t e : Nat) (ti : Option Nat) :
    PoolCleared (getTopLevelCallbackBookKeeping t e ti pool).snd := by
  cases pool with
  | nil => intro bk hbk; simp [getTopLevelCallbackBookKeeping] at hbk
  | cons bk0 rest =>
    intro bk hbk
    exact h bk (by simp [getTopLevelCallbackBookKeeping] at hbk; simp [hbk])

theorem poolCleared_after_release (pool : List BookKeeping)
    (h : PoolCleared pool) (bk : BookKeeping) :
    PoolCleared (releaseTopLevelCallbackBookKeeping bk pool) := by
  unfold releaseTopLevelCallbackBookKeeping
  split
  · intro b hb
    simp only [List.mem_cons] at hb
    rcases hb with rfl | hb
    · rfl
    · exact h b hb
  · exact h

/-- C10: the pool invariant — every record residing in the pool has its three
scalar fields null and an empty ancestors array, and the pool length never
exceeds 10 — is preserved by every acquire and every release; under it the
pooled acquire path, which repopulates only the three scalar fields and never
resets ancestors, hands out a record indistinguishable from a freshly
allocated one. -/
theorem c10_pool_invariant_preserved (pool : List BookKeeping)
    (h : PoolInv pool) :
    (∀ t e ti,
      (getTopLevelCallbackBookKeeping t e ti pool).fst =
        { topLevelType := some t, nativeEvent := some e, targetInst := ti,
          ancestors := [] } ∧
      PoolInv (getTopLevelCallbackBookKeeping t e ti pool).snd) ∧
    (∀ bk, PoolInv (releaseTopLevelCallbackBookKeeping bk pool)) := by
  obtain ⟨hclear, hlen⟩ := h
  constructor
  · intro t e ti
    refine ⟨getBookKeeping_fst_of_cleared pool hclear t e ti,
      poolCleared_after_acquire pool hclear t e ti, ?_⟩
    cases pool with
    | nil => simp [getTopLevelCallbackBookKeeping, CALLBACK_BOOKKEEPING_POOL_SIZE]
    | cons bk0 rest =>
      simp only [getTopLevelCallbackBookKeeping]
      simp at hlen
      omega
  · intro bk
    refine ⟨poolCleared_after_release pool hclear bk, ?_⟩
    unfold releaseTopLevelCallbackBookKeeping
    split
    · simp only [List.length_cons]
      omega
    · exact hlen

/-- Witness for C10 at the singleton cleared pool. -/
theorem c10_pool_invariant_preserved_witness :
    (∀ t e ti,
      (getTopLevelCallbackBookKeeping t e ti [clearedBookKeeping]).fst =
        { topLevelType := some t, nativeEvent := some e, targetInst := ti,
          ancestors := [] } ∧
      PoolInv (getTopLevelCallbackBookKeeping t e ti [clearedBookKeeping]).snd) ∧
    (∀ bk, PoolInv (releaseTopLevelCallbackBookKeeping bk [clearedBookKeeping])) :=
  c10_pool_invariant_preserved [clearedBookKeeping]
    ⟨fun bk hbk => by simpa using hbk, by simp [CALLBACK_BOOKKEEPING_POOL_SIZE]⟩

theorem dispatchPlugin_of_cleared (env : HostEnv) (chainFuel fuel : Nat)
    (topLevelType eventSystemFlags nativeEvent : Nat) (targetInst : Option Nat)
    (pool : List BookKeeping) (h : PoolCleared pool) :
    Option.map (fun r => (r.1, r.2.1))
        (dispatchEventForPluginEventSystem env chainFuel fuel topLevelType
          eventSystemFlags nativeEvent targetInst pool) =
      dispatchEventForPluginEventSystemAlwaysAllocate env chainFuel fuel
        topLevelType eventSystemFlags nativeEvent targetInst ∧
    (∀ tr res pool2,
      dispatchEventForPluginEventSystem env chainFuel fuel topLevelType
        eventSystemFlags nativeEvent targetInst pool = some (tr, res, pool2) →
      PoolCleared pool2) := by
  rcases hacq : getTopLevelCallbackBookKeeping topLevelType nativeEvent targetInst pool
    with ⟨bk, pool1⟩
  have hbk : bk =
      { topLevelType := some topLevelType, nativeEvent := some nativeEvent,
        targetInst := targetInst, ancestors := [] } := by
    have hf := getBookKeeping_fst_of_cleared pool h topLevelType nativeEvent targetInst
    rw [hacq] at hf
    exact hf
  have hp1 : PoolCleared pool1 := by
    have hs := poolCleared_after_acquire pool h topLevelType nativeEvent targetInst
    rw [hacq] at hs
    exact hs
  subst hbk
  cases hht : handleTopLevel env chainFuel fuel
      { topLevelType := some topLevelType, nativeEvent := some nativeEvent,
        targetInst := targetInst, ancestors := [] } with
  | none =>
    constructor
    · simp [dispatchEventForPluginEventSystem, hacq,
        dispatchEventForPluginEventSystemAlwaysAllocate, hht]
    · intro tr res pool2 hd
      simp [dispatchEventForPluginEventSystem, hacq, hht] at hd
  | some trip =>
    obtain ⟨bk2, trh, resh⟩ := trip
    constructor
    · simp [dispatchEventForPluginEventSystem, hacq,
        dispatchEventForPluginEventSystemAlwaysAllocate, hht]
    · intro tr res pool2 hd
      simp only [dispatchEventForPluginEventSystem, hacq, hht, Option.some.injEq,
        Prod.mk.injEq] at hd
      obtain ⟨-, -, hp2⟩ := hd
      rw [← hp2]
      exact poolCleared_after_release pool1 hp1 bk2

/-- C9: the bookkeeping pool is semantically unobservable.  For every
sequence of plugin-system dispatches, the call traces and outcomes produced
with the pooled executor starting from any fully cleared pool (every pool
arising in execution is fully cleared, release being the only push site)
coincide with those of the always-allocate executor. -/
theorem c9_pooling_not_observable (env : HostEnv) (chainFuel fuel : Nat)
    (ds : List DispatchInput) :
    ∀ pool, PoolCleared pool →
      (runPluginDispatches env chainFuel fuel ds pool).fst =
        runPluginDispatchesAlwaysAllocate env chainFuel fuel ds := by
  induction ds with
  | nil => intro pool _; rfl
  | cons d rest ih =>
    intro pool h
    obtain ⟨hmap, hpres⟩ := dispatchPlugin_of_cleared env chainFuel fuel
      d.topLevelType d.eventSystemFlags d.nativeEvent d.targetInst pool h
    cases hd : dispatchEventForPluginEventSystem env chainFuel fuel
        d.topLevelType d.eventSystemFlags d.nativeEvent d.targetInst pool with
    | none =>
      rw [hd] at hmap
      simp only [Option.map_none'] at hmap
      simp [runPluginDispatches, runPluginDispatchesAlwaysAllocate, hd, ← hmap]
    | some trip =>
      obtain ⟨tr, res, pool2⟩ := trip
      rw [hd] at hmap
      simp only [Option.map_some'] at hmap
      have hp2 := hpres tr res pool2 hd
      rcases hrun : runPluginDispatches env chainFuel fuel rest pool2 with ⟨outs, poolF⟩
      have hih := ih pool2 hp2
      rw [hrun] at hih
      simp only [runPluginDispatches, runPluginDispatchesAlwaysAllocate, hd, hrun,
        ← hmap]
      exact congrArg _ hih

/-- Witness for C9: a two-dispatch sequence (a nested-trees target, then a
detached target) from the singleton cleared pool. -/
theorem c9_pooling_not_observable_witness :
    (runPluginDispatches twoTreeEnv 5 5
        [{ topLevelType := 0, eventSystemFlags := 1, nativeEvent := 2,
           targetInst := some 1 },
         { topLevelType := 0, eventSystemFlags := 1, nativeEvent := 2,
           targetInst := some 4 }] [clearedBookKeeping]).fst =
      runPluginDispatchesAlwaysAllocate twoTreeEnv 5 5
        [{ topLevelType := 0, eventSystemFlags := 1, nativeEvent := 2,
           targetInst := some 1 },
         { topLevelType := 0, eventSystemFlags := 1, nativeEvent := 2,
           targetInst := some 4 }] :=
  c9_pooling_not_observable twoTreeEnv 5 5 _ [clearedBookKeeping]
    (fun bk hbk => by simpa using hbk)

/-- C3: when the handler-invocation pipeline raises during the batched
delivery loop, the error propagates un-swallowed to the caller of the plugin
dispatch (the outcome of the dispatch is exactly the raised error), and the
bookkeeping record is still released: when the pool was below capacity, a
fully zeroed record heads the updated pool and a subsequent acquire from it
obtains a correctly zeroed record. -/
theorem c3_error_propagates_after_cleanup (env : HostEnv) (chainFuel fuel : Nat)
    (topLevelType eventSystemFlags nativeEvent : Nat) (targetInst : Option Nat)
    (pool : List BookKeeping) (err : Nat) :
    (∀ bk2 trh,
      handleTopLevel env chainFuel fuel
          (getTopLevelCallbackBookKeeping topLevelType nativeEvent targetInst
            pool).fst =
        some (bk2, trh, Except.error err) →
      ∃ pool2, dispatchEventForPluginEventSystem env chainFuel fuel topLevelType
          eventSystemFlags nativeEvent targetInst pool =
        some (Act.batchedEventUpdates :: trh, Except.error err, pool2)) ∧
    (∀ tr pool2,
      dispatchEventForPluginEventSystem env chainFuel fuel topLevelType
          eventSystemFlags nativeEvent targetInst pool =
        some (tr, Except.error err, pool2) →
      pool.length < CALLBACK_BOOKKEEPING_POOL_SIZE →
      (∃ rest, pool2 = clearedBookKeeping :: rest) ∧
      ∀ t2 e2 ti2, (getTopLevelCallbackBookKeeping t2 e2 ti2 pool2).fst =
        { topLevelType := some t2, nativeEvent := some e2, targetInst := ti2,
          ancestors := [] }) := by
  rcases hacq : getTopLevelCallbackBookKeeping topLevelType nativeEvent targetInst pool
    with ⟨bk, pool1⟩
  have hp1len : pool1.length ≤ pool.length := by
    cases pool with
    | nil =>
      simp only [getTopLevelCallbackBookKeeping, Prod.mk.injEq] at hacq
      rw [← hacq.2]
    | cons b rest =>
      simp only [getTopLevelCallbackBookKeeping, Prod.mk.injEq] at hacq
      rw [← hacq.2, List.length_cons]
      omega
  constructor
  · intro bk2 trh hht
    have hht2 : handleTopLevel env chainFuel fuel bk =
        some (bk2, trh, Except.error err) := hht
    exact ⟨releaseTopLevelCallbackBookKeeping bk2 pool1,
      by simp [dispatchEventForPluginEventSystem, hacq, hht2]⟩
  · intro tr pool2 hd hlen
    simp only [dispatchEventForPluginEventSystem, hacq] at hd
    cases hht : handleTopLevel env chainFuel fuel bk with
    | none => rw [hht] at hd; simp at hd
    | some trip =>
      obtain ⟨bk2, trh, resh⟩ := trip
      rw [hht] at hd
      simp only [Option.some.injEq, Prod.mk.injEq] at hd
      obtain ⟨-, -, hp2⟩ := hd
      have hrel : releaseTopLevelCallbackBookKeeping bk2 pool1 =
          clearedBookKeeping :: pool1 := by
        unfold releaseTopLevelCallbackBookKeeping
        rw [if_pos (by omega)]
      refine ⟨⟨pool1, by rw [← hp2, hrel]⟩, ?_⟩
      intro t2 e2 ti2
      rw [← hp2, hrel]
      rfl

/-- Witness for C3: the throwing pipeline (error code 7) on the concrete
nested dispatch, from the empty pool. -/
theorem c3_error_propagates_after_cleanup_witness :
    (∃ pool2, dispatchEventForPluginEventSystem throwingEnv 5 5 0 1 2 (some 1) [] =
      some (Act.batchedEventUpdates ::
        [Act.pushAncestor (some 1), Act.resolve 10, Act.pushAncestor (some 3),
         Act.resolve 20, Act.deliver (some 0) (some 1) (some 2) 102],
        Except.error 7, pool2)) ∧
    ((∃ rest, [clearedBookKeeping] = clearedBookKeeping :: rest) ∧
      ∀ t2 e2 ti2,
        (getTopLevelCallbackBookKeeping t2 e2 ti2 [clearedBookKeeping]).fst =
          { topLevelType := some t2, nativeEvent := some e2, targetInst := ti2,
            ancestors := [] }) := by
  have h := c3_error_propagates_after_cleanup throwingEnv 5 5 0 1 2 (some 1) [] 7
  exact ⟨h.1 ⟨some 0, some 2, some 1, [some 1, some 3]⟩
      [Act.pushAncestor (some 1), Act.resolve 10, Act.pushAncestor (some 3),
       Act.resolve 20, Act.deliver (some 0) (some 1) (some 2) 102] rfl,
    h.2 (Act.batchedEventUpdates ::
        [Act.pushAncestor (some 1), Act.resolve 10, Act.pushAncestor (some 3),
         Act.resolve 20, Act.deliver (some 0) (some 1) (some 2) 102])
      [clearedBookKeeping] rfl (by decide)⟩

theorem deliverLoop_env_congr (env env2 : HostEnv)
    (hget : env2.getEventTarget = env.getEventTarget)
    (hrun : env2.runExtractedPluginEventsInBatch =
      env.runExtractedPluginEventsInBatch) :
    ∀ t e l, deliverLoop env2 t e l = deliverLoop env t e l := by
  intro t e l
  induction l with
  | nil => rfl
  | cons x xs ih => simp [deliverLoop, hget, hrun, ih]

theorem dispatchPlugin_none_env_congr (env env2 : HostEnv)
    (hget : env2.getEventTarget = env.getEventTarget)
    (hrun : env2.runExtractedPluginEventsInBatch =
      env.runExtractedPluginEventsInBatch)
    (chainFuel fuel : Nat) (t fl e : Nat) (pool : List BookKeeping) :
    dispatchEventForPluginEventSystem env2 chainFuel (fuel + 1) t fl e none pool =
      dispatchEventForPluginEventSystem env chainFuel (fuel + 1) t fl e none pool := by
  rcases hacq : getTopLevelCallbackBookKeeping t e none pool with ⟨bk, pool1⟩
  have htarget : bk.targetInst = none := by
    cases pool with
    | nil =>
      simp only [getTopLevelCallbackBookKeeping, Prod.mk.injEq] at hacq
      rw [← hacq.1]
    | cons b rest =>
      simp only [getTopLevelCallbackBookKeeping, Prod.mk.injEq] at hacq
      rw [← hacq.1]
  have hht : handleTopLevel env2 chainFuel (fuel + 1) bk =
      handleTopLevel env chainFuel (fuel + 1) bk := by
    simp [handleTopLevel, htarget, ancestorsLoop,
      deliverLoop_env_congr env env2 hget hrun]
  simp [dispatchEventForPluginEventSystem, hacq, hht]

theorem dispatchPlugin_none_trace (env : HostEnv) (chainFuel fuel : Nat)
    (t fl e : Nat) (pool : List BookKeeping) (h : PoolCleared pool) :
    ∃ res pool2,
      dispatchEventForPluginEventSystem env chainFuel (fuel + 1) t fl e none pool =
        some ([Act.batchedEventUpdates, Act.pushAncestor none,
          Act.deliver (some t) none (some e) (env.getEventTarget (some e))],
          res, pool2) := by
  rcases hacq : getTopLevelCallbackBookKeeping t e none pool with ⟨bk, pool1⟩
  have hbk : bk = (⟨some t, some e, none, []⟩ : BookKeeping) := by
    have hf := getBookKeeping_fst_of_cleared pool h t e none
    rw [hacq] at hf
    exact hf
  subst hbk
  cases hr : env.runExtractedPluginEventsInBatch (some t) none (some e)
      (env.getEventTarget (some e)) with
  | error err =>
    exact ⟨Except.error err,
      releaseTopLevelCallbackBookKeeping (⟨some t, some e, none, [none]⟩ : BookKeeping) pool1,
      by simp [dispatchEventForPluginEventSystem, hacq, handleTopLevel,
        ancestorsLoop, deliverLoop, hr]⟩
  | ok u =>
    cases u
    exact ⟨Except.ok (),
      releaseTopLevelCallbackBookKeeping (⟨some t, some e, none, [none]⟩ : BookKeeping) pool1,
      by simp [dispatchEventForPluginEventSystem, hacq, handleTopLevel,
        ancestorsLoop, deliverLoop, hr]⟩

/-- The environment env with its instance resolver forced to answer absent
at one node, all other collaborators unchanged. -/
def resolverAbsentAt (env : HostEnv) (node : Nat) : HostEnv :=
  { env with
      getClosestInstanceFromNode := fun n =>
        if n = node then none else env.getClosestInstanceFromNode n }

/-- C6: with the system enabled, when the instance resolver returns a
non-null instance for the event target but that instance is reported as not
mounted, the plugin-system dispatch proceeds exactly as if the resolver had
returned absent — the whole result coincides with the dispatch under the
environment whose resolver answers none at that node — and, from a cleared
pool, the event is delivered exactly once, untargeted (one pipeline call,
with a null target instance). -/
theorem c6_unmounted_target_treated_as_absent (env : HostEnv)
    (chainFuel fuel : Nat) (enableEventAPI : Bool)
    (topLevelType nativeEvent i : Nat) (pool : List BookKeeping)
    (hres : env.getClosestInstanceFromNode (env.getEventTarget (some nativeEvent)) =
      some i)
    (hunm : env.isFiberMounted i = false) :
    dispatchEvent env chainFuel (fuel + 1) true enableEventAPI topLevelType
        PLUGIN_EVENT_SYSTEM nativeEvent pool =
      dispatchEvent (resolverAbsentAt env (env.getEventTarget (some nativeEvent)))
        chainFuel (fuel + 1) true enableEventAPI topLevelType
        PLUGIN_EVENT_SYSTEM nativeEvent pool ∧
    (PoolCleared pool →
      ∃ res pool2,
        dispatchEvent env chainFuel (fuel + 1) true enableEventAPI topLevelType
            PLUGIN_EVENT_SYSTEM nativeEvent pool =
          some ([Act.resolve (env.getEventTarget (some nativeEvent)),
              Act.batchedEventUpdates, Act.pushAncestor none,
              Act.deliver (some topLevelType) none (some nativeEvent)
                (env.getEventTarget (some nativeEvent))], res, pool2) ∧
        List.filter Act.isDeliver
            [Act.resolve (env.getEventTarget (some nativeEvent)),
              Act.batchedEventUpdates, Act.pushAncestor none,
              Act.deliver (some topLevelType) none (some nativeEvent)
                (env.getEventTarget (some nativeEvent))] =
          [Act.deliver (some topLevelType) none (some nativeEvent)
            (env.getEventTarget (some nativeEvent))]) := by
  have hcongr := dispatchPlugin_none_env_congr env
    (resolverAbsentAt env (env.getEventTarget (some nativeEvent))) rfl rfl
    chainFuel fuel topLevelType PLUGIN_EVENT_SYSTEM nativeEvent pool
  simp only [resolverAbsentAt] at hcongr
  constructor
  · cases enableEventAPI with
    | true => simp [dispatchEvent, hres, hunm, resolverAbsentAt, hcongr]
    | false => simp [dispatchEvent, hres, hunm, resolverAbsentAt, hcongr]
  · intro hcleared
    obtain ⟨res, pool2, htr⟩ := dispatchPlugin_none_trace env chainFuel fuel
      topLevelType PLUGIN_EVENT_SYSTEM nativeEvent pool hcleared
    refine ⟨res, pool2, ?_, by simp [Act.isDeliver]⟩
    cases enableEventAPI with
    | true => simp [dispatchEvent, hres, hunm, htr]
    | false => simp [dispatchEvent, hres, hunm, htr]

/-- Witness for C6: event 2, whose target node 102 resolves to the unmounted
fiber 1, dispatched from the empty pool. -/
theorem c6_unmounted_target_treated_as_absent_witness :
    dispatchEvent unmountedTargetEnv 5 5 true false 0 PLUGIN_EVENT_SYSTEM 2 [] =
      dispatchEvent (resolverAbsentAt unmountedTargetEnv
        (unmountedTargetEnv.getEventTarget (some 2))) 5 5 true false 0
        PLUGIN_EVENT_SYSTEM 2 [] ∧
    (PoolCleared [] →
      ∃ res pool2,
        dispatchEvent unmountedTargetEnv 5 5 true false 0 PLUGIN_EVENT_SYSTEM 2 [] =
          some ([Act.resolve (unmountedTargetEnv.getEventTarget (some 2)),
              Act.batchedEventUpdates, Act.pushAncestor none,
              Act.deliver (some 0) none (some 2)
                (unmountedTargetEnv.getEventTarget (some 2))], res, pool2) ∧
        List.filter Act.isDeliver
            [Act.resolve (unmountedTargetEnv.getEventTarget (some 2)),
              Act.batchedEventUpdates, Act.pushAncestor none,
              Act.deliver (some 0) none (some 2)
                (unmountedTargetEnv.getEventTarget (some 2))] =
          [Act.deliver (some 0) none (some 2)
            (unmountedTargetEnv.getEventTarget (some 2))]) :=
  c6_unmounted_target_treated_as_absent unmountedTargetEnv 5 4 false 0 2 1 [] rfl rfl

theorem dispatchPlugin_trace_shapes (env : HostEnv) (chainFuel fuel : Nat)
    (topLevelType eventSystemFlags nativeEvent : Nat) (targetInst : Option Nat)
    (pool : List BookKeeping) (tr : List Act) (res : Except Nat Unit)
    (pool2 : List BookKeeping)
    (h : dispatchEventForPluginEventSystem env chainFuel fuel topLevelType
      eventSystemFlags nativeEvent targetInst pool = some (tr, res, pool2)) :
    ∀ a ∈ tr, a = Act.batchedEventUpdates ∨ a.isPushAncestor = true ∨
      a.isResolve = true ∨ a.isDeliver = true := by
  rcases hacq : getTopLevelCallbackBookKeeping topLevelType nativeEvent targetInst pool
    with ⟨bk, pool1⟩
  simp only [dispatchEventForPluginEventSystem, hacq] at h
  cases hht : handleTopLevel env chainFuel fuel bk with
  | none => rw [hht] at h; simp at h
  | some trip =>
    obtain ⟨bk2, trh, resh⟩ := trip
    rw [hht] at h
    simp only [Option.some.injEq, Prod.mk.injEq] at h
    obtain ⟨htr, -, -⟩ := h
    cases hanc : ancestorsLoop env chainFuel fuel bk.targetInst bk.ancestors with
    | none => simp [handleTopLevel, hanc] at hht
    | some p =>
      obtain ⟨ancestors, tr1⟩ := p
      rcases hdl : deliverLoop env bk.topLevelType bk.nativeEvent ancestors
        with ⟨tr2, res2⟩
      simp only [handleTopLevel, hanc, hdl, Option.some.injEq, Prod.mk.injEq] at hht
      obtain ⟨-, htrh, -⟩ := hht
      intro a ha
      rw [← htr, ← htrh] at ha
      simp only [List.mem_cons, List.mem_append] at ha
      rcases ha with rfl | ha | ha
      · exact Or.inl rfl
      · rcases ancestorsLoop_trace_mem env chainFuel fuel bk.targetInst bk.ancestors
            ancestors tr1 hanc a ha with hp | hr
        · exact Or.inr (Or.inl hp)
        · exact Or.inr (Or.inr (Or.inl hr))
      · exact Or.inr (Or.inr (Or.inr
          (deliverLoop_trace_mem env bk.topLevelType bk.nativeEvent ancestors a
            (by rw [hdl]; exact ha))))

theorem act_shape_not_discrete {a : Act}
    (h : a = Act.batchedEventUpdates ∨ a.isPushAncestor = true ∨
      a.isResolve = true ∨ a.isDeliver = true) :
    a ≠ Act.discreteUpdates ∧ a ≠ Act.flushDiscreteUpdates := by
  cases a <;> simp_all [Act.isPushAncestor, Act.isResolve, Act.isDeliver]

theorem dispatchEvent_trace_no_discrete (env : HostEnv) (chainFuel fuel : Nat)
    (enabled enableEventAPI : Bool) (topLevelType eventSystemFlags nativeEvent : Nat)
    (pool : List BookKeeping) (tr : List Act) (res : Except Nat Unit)
    (pool2 : List BookKeeping)
    (h : dispatchEvent env chainFuel fuel enabled enableEventAPI topLevelType
      eventSystemFlags nativeEvent pool = some (tr, res, pool2)) :
    Act.discreteUpdates ∉ tr ∧ Act.flushDiscreteUpdates ∉ tr := by
  have hmem : ∀ a ∈ tr, a ≠ Act.discreteUpdates ∧ a ≠ Act.flushDiscreteUpdates := by
    cases enabled with
    | false =>
      simp only [dispatchEvent, Bool.not_false, if_pos, Option.some.injEq,
        Prod.mk.injEq] at h
      rw [← h.1]
      intro a ha
      simp at ha
    | true =>
      simp only [dispatchEvent, Bool.not_true, Bool.false_eq_true, if_false] at h
      by_cases hapi : enableEventAPI
      · rw [if_pos hapi] at h
        by_cases hfl : eventSystemFlags = PLUGIN_EVENT_SYSTEM
        · rw [if_pos hfl] at h
          cases hd : dispatchEventForPluginEventSystem env chainFuel fuel
              topLevelType eventSystemFlags nativeEvent
              (match env.getClosestInstanceFromNode
                  (env.getEventTarget (some nativeEvent)) with
                | some i => if !env.isFiberMounted i then none else some i
                | none => none) pool with
          | none => rw [hd] at h; simp at h
          | some trip =>
            obtain ⟨trp, resp, poolp⟩ := trip
            rw [hd] at h
            simp only [Option.some.injEq, Prod.mk.injEq] at h
            obtain ⟨htr, -, -⟩ := h
            intro a ha
            rw [← htr] at ha
            simp only [List.mem_cons] at ha
            rcases ha with rfl | ha
            · exact ⟨by simp, by simp⟩
            · exact act_shape_not_discrete
                (dispatchPlugin_trace_shapes env chainFuel fuel topLevelType
                  eventSystemFlags nativeEvent _ pool trp resp poolp hd a ha)
        · rw [if_neg hfl] at h
          simp only [Option.some.injEq, Prod.mk.injEq] at h
          obtain ⟨htr, -, -⟩ := h
          intro a ha
          rw [← htr] at ha
          simp only [List.mem_cons, List.not_mem_nil, or_false] at ha
          rcases ha with rfl | rfl
          · exact ⟨by simp, by simp⟩
          · exact ⟨by simp, by simp⟩
      · rw [if_neg hapi] at h
        cases hd : dispatchEventForPluginEventSystem env chainFuel fuel
            topLevelType eventSystemFlags nativeEvent
            (match env.getClosestInstanceFromNode
                (env.getEventTarget (some nativeEvent)) with
              | some i => if !env.isFiberMounted i then none else some i
              | none => none) pool with
        | none => rw [hd] at h; simp at h
        | some trip =>
          obtain ⟨trp, resp, poolp⟩ := trip
          rw [hd] at h
          simp only [Option.some.injEq, Prod.mk.injEq] at h
          obtain ⟨htr, -, -⟩ := h
          intro a ha
          rw [← htr] at ha
          simp only [List.mem_cons] at ha
          rcases ha with rfl | ha
          · exact ⟨by simp, by simp⟩
          · exact act_shape_not_discrete
              (dispatchPlugin_trace_shapes env chainFuel fuel topLevelType
                eventSystemFlags nativeEvent _ pool trp resp poolp hd a ha)
  constructor
  · intro hmem2
    exact (hmem Act.discreteUpdates hmem2).1 rfl
  · intro hmem2
    exact (hmem Act.flushDiscreteUpdates hmem2).2 rfl

/-- C5: the listener bound by trapEventForPluginEventSystem.  For an
interactive event kind the listener first invokes flushDiscreteUpdates
exactly when the feature flag is off or the timestamp staleness policy
fires, and then runs the whole dispatch inside one discreteUpdates wrapper,
the inner dispatch trace never containing the discrete primitives itself;
for a non-interactive kind the listener is exactly the plain dispatch path,
whose trace never contains the discrete primitives. -/
theorem c5_interactive_discrete_policy (env : HostEnv) (chainFuel fuel : Nat)
    (enabled enableEventAPI : Bool) (topLevelType nativeEvent : Nat)
    (pool : List BookKeeping) :
    (env.isInteractiveTopLevelEventType topLevelType = true →
      ∀ tr res pool2,
        dispatchEvent env chainFuel fuel enabled enableEventAPI topLevelType
            PLUGIN_EVENT_SYSTEM nativeEvent pool = some (tr, res, pool2) →
        trapEventForPluginEventSystemListener env chainFuel fuel enabled
            enableEventAPI topLevelType nativeEvent pool =
          some ((if !enableEventAPI ||
              env.shouldflushDiscreteUpdates (env.timeStamp nativeEvent)
            then [Act.flushDiscreteUpdates] else []) ++
            Act.discreteUpdates :: tr, res, pool2) ∧
        Act.discreteUpdates ∉ tr ∧ Act.flushDiscreteUpdates ∉ tr) ∧
    (env.isInteractiveTopLevelEventType topLevelType = false →
      trapEventForPluginEventSystemListener env chainFuel fuel enabled
          enableEventAPI topLevelType nativeEvent pool =
        dispatchEvent env chainFuel fuel enabled enableEventAPI topLevelType
          PLUGIN_EVENT_SYSTEM nativeEvent pool ∧
      ∀ tr res pool2,
        dispatchEvent env chainFuel fuel enabled enableEventAPI topLevelType
            PLUGIN_EVENT_SYSTEM nativeEvent pool = some (tr, res, pool2) →
        Act.discreteUpdates ∉ tr ∧ Act.flushDiscreteUpdates ∉ tr) := by
  constructor
  · intro hint tr res pool2 h
    refine ⟨?_, dispatchEvent_trace_no_discrete env chainFuel fuel enabled
      enableEventAPI topLevelType PLUGIN_EVENT_SYSTEM nativeEvent pool tr res
      pool2 h⟩
    simp [trapEventForPluginEventSystemListener, hint, dispatchInteractiveEvent, h]
  · intro hint
    refine ⟨by simp [trapEventForPluginEventSystemListener, hint], ?_⟩
    intro tr res pool2 h
    exact dispatchEvent_trace_no_discrete env chainFuel fuel enabled
      enableEventAPI topLevelType PLUGIN_EVENT_SYSTEM nativeEvent pool tr res
      pool2 h

/-- Witness for C5: the interactive kind 1 dispatched through the trap
listener in the concrete world. -/
theorem c5_interactive_discrete_policy_witness :
    trapEventForPluginEventSystemListener twoTreeEnv 5 5 true true 1 2 [] =
      some ((if !true ||
          twoTreeEnv.shouldflushDiscreteUpdates (twoTreeEnv.timeStamp 2)
        then [Act.flushDiscreteUpdates] else []) ++
        Act.discreteUpdates ::
          [Act.resolve 102, Act.batchedEventUpdates, Act.pushAncestor none,
           Act.deliver (some 1) none (some 2) 102],
        Except.ok (), [clearedBookKeeping]) ∧
    Act.discreteUpdates ∉
      [Act.resolve 102, Act.batchedEventUpdates, Act.pushAncestor none,
       Act.deliver (some 1) none (some 2) 102] ∧
    Act.flushDiscreteUpdates ∉
      [Act.resolve 102, Act.batchedEventUpdates, Act.pushAncestor none,
       Act.deliver (some 1) none (some 2) 102] :=
  (c5_interactive_discrete_policy twoTreeEnv 5 5 true true 1 2 []).1 rfl
    [Act.resolve 102, Act.batchedEventUpdates, Act.pushAncestor none,
     Act.deliver (some 1) none (some 2) 102]
    (Except.ok ()) [clearedBookKeeping] rfl

/-- Counterexample to C4 as stated: with the global enabled flag false, an
event arriving through the interactive-wrapped listener variant is not a
complete no-op — the batching primitives are still touched: the trace holds
a flushDiscreteUpdates call and a discreteUpdates call. -/
theorem c4_counterexample_interactive_disabled_not_silent :
    dispatchInteractiveEvent twoTreeEnv 5 5 false false 1 PLUGIN_EVENT_SYSTEM 2 [] =
      some ([Act.flushDiscreteUpdates, Act.discreteUpdates], Except.ok (), []) ∧
    ([Act.flushDiscreteUpdates, Act.discreteUpdates] : List Act) ≠ [] :=
  ⟨rfl, by simp⟩

/-- C4 amended: with the global enabled flag false, the plain dispatch entry
point is a complete no-op — empty call trace, no error, pool untouched — and
the interactive-wrapped listener variant likewise makes zero calls into the
instance resolver and zero calls into the handler-invocation pipeline and
leaves the pool untouched, but it does still invoke flushDiscreteUpdates
(exactly when the feature flag is off or the staleness policy fires) and the
discreteUpdates wrapper before the inner dispatch no-ops. -/
theorem c4_disabled_dispatch_no_op (env : HostEnv) (chainFuel fuel : Nat)
    (enableEventAPI : Bool) (topLevelType eventSystemFlags nativeEvent : Nat)
    (pool : List BookKeeping) :
    dispatchEvent env chainFuel fuel false enableEventAPI topLevelType
        eventSystemFlags nativeEvent pool = some ([], Except.ok (), pool) ∧
    dispatchInteractiveEvent env chainFuel fuel false enableEventAPI topLevelType
        eventSystemFlags nativeEvent pool =
      some ((if !enableEventAPI ||
          env.shouldflushDiscreteUpdates (env.timeStamp nativeEvent)
        then [Act.flushDiscreteUpdates] else []) ++ [Act.discreteUpdates],
        Except.ok (), pool) := by
  constructor
  · simp [dispatchEvent]
  · simp [dispatchInteractiveEvent, dispatchEvent]
